import Mathlib

/-
Verification of the object model of the video699 research dataset.

The development shallowly embeds the two source modules:
  * dataset.py — the entity graph (Dataset, Video, Document, Page, Frame,
    Screen, KeyRef) built from a parsed annotation tree, the per-screen
    matching-page derivation and the outlier predicate, and the k-fold
    evaluation sampler;
  * review.py — the quadrilateral rectification routine crop.

XML parsing, schema validation and file I/O are outside the embedding: a
video element arrives as an already-parsed tree of element records
(VideoElem, DocumentElem, PageElem, FrameElem, ScreenElem, KeyRefElem)
whose attributes are already coerced to their scalar types, exactly the
data dataset.py reads out of lxml elements.  The opaque vgg256 JSON
payloads are not modelled: no claim touches them and the code passes them
through unchanged.

Python specifics and how they are modelled:
  * Coordinates are machine integers in dataset.py (int(...) on the
    attributes); they are modelled as Int.
  * Python dicts are modelled as association lists with newest binding in
    front, so assignment order gives dict-overwrite semantics under
    List.lookup.
  * A raised KeyError is modelled as the error branch of Except KeyError;
    Python's KeyError value carries exactly the missing key, nothing else,
    which the KeyError structure below mirrors.  An exception raised inside
    a constructor propagates, so a failed build yields no object at all;
    Except's short-circuiting models that.
  * Python set(...) over Page objects is modelled as Finset Page with
    structural equality; dataset.py builds one distinct Page object per
    page element, so structural equality of the modelled attribute records
    stands in for object identity.
-/

set_option maxHeartbeats 1000000

namespace VDD

/-- Coordinate: a point in the 2D projection space of a video frame
(dataset.py line 200). -/
structure Coordinate where
  x : Int
  y : Int
deriving DecidableEq, Repr

/-- BoundingQuadrilinear: the bounding quadrilinear of a screen on a video
frame (dataset.py lines 203-204).  Field names follow the source. -/
structure BoundingQuadrilinear where
  top_left : Coordinate
  top_right : Coordinate
  bottom_left : Coordinate
  bottom_right : Coordinate
deriving DecidableEq, Repr

/-- Page: the scalar attributes dataset.py stores on a Page object
(lines 162-165), minus the opaque vgg256 payload. -/
structure Page where
  filename : String
  key : String
  number : Int
deriving DecidableEq, Repr

/-- KeyRef: a resolved is-displayed-on relation (dataset.py lines 294-299):
the Page obtained by the key lookup, and the similarity grade attribute. -/
structure KeyRef where
  page : Page
  similarity : String
deriving DecidableEq, Repr

/-- Screen: the constructor inputs a Screen object retains that the claims
depend on (dataset.py lines 216-245): the condition tag, the bounding
quadrilinear, the owning video's pixel width and height, and the list of
resolved KeyRefs.  The derived fields is_beyond_bounds and matching_pages
are pure functions of these and are defined below. -/
structure Screen where
  condition : String
  bounds : BoundingQuadrilinear
  videoWidth : Int
  videoHeight : Int
  keyrefs : List KeyRef
deriving DecidableEq, Repr

/-- Screen.is_beyond_bounds, computed at construction (dataset.py lines
228-235): the eight-way disjunction comparing the quadrilinear's corners
against the video's width and height. -/
def Screen.is_beyond_bounds (s : Screen) : Bool :=
  decide (s.bounds.top_left.x < 0)
  || decide (s.bounds.bottom_left.x < 0)
  || decide (s.bounds.top_right.x ≥ s.videoWidth)
  || decide (s.bounds.bottom_right.x ≥ s.videoWidth)
  || decide (s.bounds.top_left.y < 0)
  || decide (s.bounds.top_right.y < 0)
  || decide (s.bounds.bottom_left.y ≥ s.videoHeight)
  || decide (s.bounds.bottom_right.y ≥ s.videoHeight)

/-- Screen.matching_pages, computed at construction (dataset.py lines
242-245): the set of pages of full-similarity keyrefs; if that set is
empty, the set of pages of all keyrefs. -/
def Screen.matching_pages (s : Screen) : Finset Page :=
  let full := ((s.keyrefs.filter fun kr => kr.similarity == "full").map KeyRef.page).toFinset
  if full = ∅ then (s.keyrefs.map KeyRef.page).toFinset else full

/-- Screen.is_outlier (dataset.py lines 247-276): the five-toggle outlier
predicate, evaluated as the source's early-return if chain.  The source
defaults every toggle to True; defaults are passed explicitly here. -/
def Screen.is_outlier (s : Screen) (windowed obstacle beyond_bounds incremental no_match : Bool) : Bool :=
  if windowed && (s.condition == "windowed") then true
  else if obstacle && (s.condition == "obstacle") then true
  else if beyond_bounds && s.is_beyond_bounds then true
  else if incremental && (s.keyrefs.filter fun kr => kr.similarity == "full").isEmpty then true
  else if no_match && s.keyrefs.isEmpty then true
  else false

/-- The set of pages referenced by the full-similarity cross-references of
a screen, written from the specification's description of the first
branch of matching_pages. -/
def fullPagesSet (s : Screen) : Set Page :=
  {p | ∃ kr ∈ s.keyrefs, kr.similarity = "full" ∧ kr.page = p}

/-- The set of pages referenced by all cross-references of a screen,
written from the specification's description of the fallback branch of
matching_pages. -/
def allPagesSet (s : Screen) : Set Page :=
  {p | ∃ kr ∈ s.keyrefs, kr.page = p}

theorem matching_pages_of_full (s : Screen)
    (h : ∃ kr ∈ s.keyrefs, kr.similarity = "full") :
    (s.matching_pages : Set Page) = fullPagesSet s := by
  unfold Screen.matching_pages
  obtain ⟨kr, hmem, hsim⟩ := h
  have hmemf : kr.page ∈ ((s.keyrefs.filter fun kr => kr.similarity == "full").map KeyRef.page).toFinset := by
    rw [List.mem_toFinset, List.mem_map]
    exact ⟨kr, List.mem_filter.mpr ⟨hmem, by simpa using hsim⟩, rfl⟩
  have hne : ((s.keyrefs.filter fun kr => kr.similarity == "full").map KeyRef.page).toFinset ≠ ∅ :=
    Finset.nonempty_iff_ne_empty.mp ⟨kr.page, hmemf⟩
  simp only [if_neg hne]
  ext p
  simp only [Finset.coe_sort_coe, List.coe_toFinset, List.mem_map, List.mem_filter,
    beq_iff_eq, fullPagesSet, Set.mem_setOf_eq, Set.mem_def]
  constructor
  · rintro ⟨q, ⟨hq, hqs⟩, rfl⟩
    exact ⟨q, hq, hqs, rfl⟩
  · rintro ⟨q, hq, hqs, rfl⟩
    exact ⟨q, ⟨hq, hqs⟩, rfl⟩

theorem matching_pages_of_no_full (s : Screen)
    (h : ¬ ∃ kr ∈ s.keyrefs, kr.similarity = "full") :
    (s.matching_pages : Set Page) = allPagesSet s := by
  unfold Screen.matching_pages
  have hfil : s.keyrefs.filter (fun kr => kr.similarity == "full") = [] := by
    rw [List.filter_eq_nil_iff]
    intro kr hkr
    simp only [beq_iff_eq]
    intro hc
    exact h ⟨kr, hkr, by simpa using hc⟩
  simp only [hfil]
  ext p
  simp [allPagesSet]

/-- C1: matching_pages equals the set of pages of full-similarity
cross-references when a full-similarity cross-reference exists; otherwise
it equals the set of pages of all cross-references; and a screen with no
cross-references gets the empty set. -/
theorem C1_matching_pages (s : Screen) :
    ((∃ kr ∈ s.keyrefs, kr.similarity = "full") →
      (s.matching_pages : Set Page) = fullPagesSet s)
    ∧ ((¬ ∃ kr ∈ s.keyrefs, kr.similarity = "full") →
      (s.matching_pages : Set Page) = allPagesSet s)
    ∧ (s.keyrefs = [] → s.matching_pages = ∅) := by
  refine ⟨matching_pages_of_full s, matching_pages_of_no_full s, ?_⟩
  intro h
  simp [Screen.matching_pages, h]

/-- Fixture page for the concrete screens below. -/
def pageA : Page := { filename := "video1/slides/001.png", key := "slide1", number := 1 }

/-- Second fixture page. -/
def pageB : Page := { filename := "video1/slides/002.png", key := "slide2", number := 2 }

/-- Fixture quadrilinear entirely inside a 640 by 480 video. -/
def quadIn : BoundingQuadrilinear :=
  { top_left := ⟨10, 10⟩, top_right := ⟨600, 12⟩
    bottom_left := ⟨11, 400⟩, bottom_right := ⟨601, 401⟩ }

/-- Fixture screen with one full-similarity and one medium-similarity
cross-reference. -/
def screenFull : Screen :=
  { condition := "normal", bounds := quadIn, videoWidth := 640, videoHeight := 480
    keyrefs := [{ page := pageA, similarity := "full" }, { page := pageB, similarity := "medium" }] }

/-- Fixture screen whose only cross-reference has medium similarity. -/
def screenMed : Screen :=
  { condition := "normal", bounds := quadIn, videoWidth := 640, videoHeight := 480
    keyrefs := [{ page := pageB, similarity := "medium" }] }

/-- Fixture screen with no cross-references at all. -/
def screenNone : Screen :=
  { condition := "normal", bounds := quadIn, videoWidth := 640, videoHeight := 480
    keyrefs := [] }

/-- Witness for C1: all three branches checked on concrete screens. -/
theorem C1_matching_pages_witness :
    (screenFull.matching_pages : Set Page) = fullPagesSet screenFull
    ∧ (screenMed.matching_pages : Set Page) = allPagesSet screenMed
    ∧ screenNone.matching_pages = ∅ := by
  refine ⟨(C1_matching_pages screenFull).1 ?_, (C1_matching_pages screenMed).2.1 ?_,
    (C1_matching_pages screenNone).2.2 rfl⟩
  · exact ⟨{ page := pageA, similarity := "full" }, by simp [screenFull], rfl⟩
  · rintro ⟨kr, hmem, hsim⟩
    simp [screenMed] at hmem
    rw [hmem] at hsim
    simp at hsim

/-- Counterexample to C2 as stated: the screen with zero cross-references.
The incremental-only call returns true on it, but the claim's condition
(at least one cross-reference and none of full similarity) is false. -/
theorem C2_counterexample :
    screenNone.is_outlier false false false true false = true
    ∧ ¬ (screenNone.keyrefs ≠ [] ∧ ∀ kr ∈ screenNone.keyrefs, kr.similarity ≠ "full") := by
  constructor
  · rfl
  · rintro ⟨hne, -⟩
    exact hne rfl

/-- C2 amended: the incremental-only call returns true exactly when no
cross-reference of the screen has similarity "full" — including the case
of a screen with no cross-references at all, where it also returns true. -/
theorem C2_incremental_amended (s : Screen) :
    s.is_outlier false false false true false = true
    ↔ ∀ kr ∈ s.keyrefs, kr.similarity ≠ "full" := by
  unfold Screen.is_outlier
  simp only [Bool.false_and, Bool.true_and, if_false]
  constructor
  · intro h kr hkr hsim
    by_cases hf : (s.keyrefs.filter fun kr => kr.similarity == "full").isEmpty
    · rw [List.isEmpty_iff] at hf
      have : kr ∈ s.keyrefs.filter fun kr => kr.similarity == "full" := by
        simp [List.mem_filter, hkr, hsim]
      rw [hf] at this
      simp at this
    · simp [hf] at h
  · intro h
    have hf : s.keyrefs.filter (fun kr => kr.similarity == "full") = [] := by
      rw [List.filter_eq_nil_iff]
      intro kr hkr
      simpa using h kr hkr
    simp [hf]

/-- Witness for C2 amended: the screen with no cross-references and the
screen with only a medium-similarity cross-reference are both
incremental-only outliers, while the screen with a full-similarity
cross-reference is not. -/
theorem C2_incremental_amended_witness :
    screenNone.is_outlier false false false true false = true
    ∧ screenMed.is_outlier false false false true false = true
    ∧ screenFull.is_outlier false false false true false = false := by
  refine ⟨(C2_incremental_amended screenNone).mpr (by simp [screenNone]),
    (C2_incremental_amended screenMed).mpr ?_, ?_⟩
  · intro kr hkr
    simp [screenMed] at hkr
    rw [hkr]
    simp
  · rw [← Bool.not_eq_true]
    intro hc
    have h := (C2_incremental_amended screenFull).mp hc
      { page := pageA, similarity := "full" } (by simp [screenFull])
    exact h rfl

/-- C3: the beyond-bounds-only call returns true exactly when one of the
eight corner-coordinate bound checks of dataset.py lines 228-235 fires;
corners at width minus one or height minus one are in bounds, corners at
width or height are beyond bounds. -/
theorem C3_beyond_bounds (s : Screen) :
    s.is_outlier false false true false false = true
    ↔ (s.bounds.top_left.x < 0 ∨ s.bounds.bottom_left.x < 0
       ∨ s.bounds.top_right.x ≥ s.videoWidth ∨ s.bounds.bottom_right.x ≥ s.videoWidth
       ∨ s.bounds.top_left.y < 0 ∨ s.bounds.top_right.y < 0
       ∨ s.bounds.bottom_left.y ≥ s.videoHeight ∨ s.bounds.bottom_right.y ≥ s.videoHeight) := by
  unfold Screen.is_outlier Screen.is_beyond_bounds
  simp only [Bool.false_and, Bool.true_and, if_false]
  by_cases h1 : s.bounds.top_left.x < 0 <;>
    by_cases h2 : s.bounds.bottom_left.x < 0 <;>
    by_cases h3 : s.bounds.top_right.x ≥ s.videoWidth <;>
    by_cases h4 : s.bounds.bottom_right.x ≥ s.videoWidth <;>
    by_cases h5 : s.bounds.top_left.y < 0 <;>
    by_cases h6 : s.bounds.top_right.y < 0 <;>
    by_cases h7 : s.bounds.bottom_left.y ≥ s.videoHeight <;>
    by_cases h8 : s.bounds.bottom_right.y ≥ s.videoHeight <;>
    simp [h1, h2, h3, h4, h5, h6, h7, h8]

/-- Screen whose bottom right corner sits exactly at (width-1, height-1):
every bound check passes. -/
def screenEdgeIn : Screen :=
  { condition := "normal"
    bounds := { top_left := ⟨0, 0⟩, top_right := ⟨639, 0⟩
                bottom_left := ⟨0, 479⟩, bottom_right := ⟨639, 479⟩ }
    videoWidth := 640, videoHeight := 480, keyrefs := [] }

/-- Screen whose bottom right corner sits exactly at (width, height):
beyond bounds. -/
def screenEdgeOut : Screen :=
  { condition := "normal"
    bounds := { top_left := ⟨0, 0⟩, top_right := ⟨639, 0⟩
                bottom_left := ⟨0, 479⟩, bottom_right := ⟨640, 480⟩ }
    videoWidth := 640, videoHeight := 480, keyrefs := [] }

/-- Witness for C3 at the boundary: a corner at width-1/height-1 is in
bounds and the call returns false; a corner at width/height is beyond
bounds and the call returns true. -/
theorem C3_beyond_bounds_witness :
    screenEdgeOut.is_outlier false false true false false = true
    ∧ screenEdgeIn.is_outlier false false true false false = false := by
  constructor
  · exact (C3_beyond_bounds screenEdgeOut).mpr (by decide)
  · rw [← Bool.not_eq_true]
    intro hc
    exact absurd ((C3_beyond_bounds screenEdgeIn).mp hc) (by decide)

/-- C9: with the other four toggles enabled, disabling no_match never
changes the outlier verdict: a screen with zero cross-references already
trips the enabled incremental check, so the no-match check is subsumed. -/
theorem C9_no_match_subsumed (s : Screen) :
    s.is_outlier true true true true false = s.is_outlier true true true true true := by
  unfold Screen.is_outlier
  simp only [Bool.true_and, Bool.false_and, if_false]
  by_cases hw : (s.condition == "windowed") = true
  · simp [hw]
  · by_cases ho : (s.condition == "obstacle") = true
    · simp [hw, ho]
    · by_cases hb : s.is_beyond_bounds = true
      · simp [hw, ho, hb]
      · by_cases hi : (s.keyrefs.filter fun kr => kr.similarity == "full").isEmpty = true
        · simp [hw, ho, hb, hi]
        · have hne : s.keyrefs.isEmpty = false := by
            rcases hk : s.keyrefs with _ | _
            · rw [hk] at hi
              simp at hi
            · simp
          simp [hw, ho, hb, hi, hne]

/-- PageElem: the attributes dataset.py reads off a page element
(lines 162-165): filename, key, number. -/
structure PageElem where
  filename : String
  key : String
  number : Int
deriving DecidableEq, Repr

/-- DocumentElem: a document element with its page children
(lines 136-142). -/
structure DocumentElem where
  filename : String
  pages : List PageElem
deriving DecidableEq, Repr

/-- KeyRefElem: a keyref element: its text is the referenced key and it
carries a similarity attribute (lines 296-299). -/
structure KeyRefElem where
  key : String
  similarity : String
deriving DecidableEq, Repr

/-- ScreenElem: a screen element (lines 221-227): the condition tag and
the four corners read from x0/y0 (top left), x1/y1 (top right), x2/y2
(bottom left) and x3/y3 (bottom right), plus keyref children. -/
structure ScreenElem where
  condition : String
  bounds : BoundingQuadrilinear
  keyrefs : List KeyRefElem
deriving DecidableEq, Repr

/-- FrameElem: a frame element with its screen children (lines 184-194). -/
structure FrameElem where
  filename : String
  number : Int
  screens : List ScreenElem
deriving DecidableEq, Repr

/-- VideoElem: a video element (lines 90-95) with its document children
and frame children.  dataset.py collects all document descendants with
findall before any frame is processed, so the two child lists are kept
separately; their relative position in the raw source cannot matter. -/
structure VideoElem where
  dirname : String
  fps : Int
  frames_num : Int
  width : Int
  height : Int
  uri : String
  documents : List DocumentElem
  frames : List FrameElem
deriving DecidableEq, Repr

/-- Document object (dataset.py lines 132-142). -/
structure Document where
  filename : String
  pages : List Page
deriving DecidableEq, Repr

/-- Frame object (dataset.py lines 180-194): own attributes plus the
screens built from its screen children and their accumulated keyrefs. -/
structure Frame where
  filename : String
  number : Int
  screens : List Screen
  keyrefs : List KeyRef
deriving DecidableEq, Repr

/-- KeyError: the value of the Python KeyError raised by
self.video.page_dict[element.text] (dataset.py line 296) when the key
is absent.  A Python KeyError carries exactly the missing key. -/
structure KeyError where
  key : String
deriving DecidableEq, Repr

/-- Video object (dataset.py lines 87-117): scalar attributes, documents,
the flattened page list, the key-to-page dictionary, frames, and the
flattened screen and keyref lists. -/
structure Video where
  dirname : String
  fps : Int
  frames_num : Int
  width : Int
  height : Int
  uri : String
  documents : List Document
  pages : List Page
  page_dict : List (String × Page)
  frames : List Frame
  screens : List Screen
  keyrefs : List KeyRef
deriving DecidableEq, Repr

/-- Dataset object (dataset.py lines 40-53): the videos and the
concatenations of their entity lists.  Parsing and schema validation
(lines 30-37) are outside the embedding. -/
structure Dataset where
  dirname : String
  videos : List Video
  documents : List Document
  pages : List Page
  frames : List Frame
  screens : List Screen
  keyrefs : List KeyRef
deriving DecidableEq, Repr

/-- Sequencing of a Python loop that builds one object per element and
propagates the first raised exception: the whole list of results, or the
first error. -/
def mapExcept (f : α → Except ε β) : List α → Except ε (List β)
  | [] => .ok []
  | a :: as =>
    match f a with
    | .error e => .error e
    | .ok b =>
      match mapExcept f as with
      | .error e => .error e
      | .ok bs => .ok (b :: bs)

/-- Page construction (dataset.py lines 157-165): the filename is joined
with the owning video's dirname; key and number are copied. -/
def buildPage (video_dirname : String) (e : PageElem) : Page :=
  { filename := video_dirname ++ "/" ++ e.filename, key := e.key, number := e.number }

/-- Document construction (dataset.py lines 132-142). -/
def buildDocument (video_dirname : String) (e : DocumentElem) : Document :=
  { filename := video_dirname ++ "/" ++ e.filename
    pages := e.pages.map (buildPage video_dirname) }

/-- The page dictionary of a video (dataset.py lines 103-107): one
assignment per page, in document then page order.  The newest binding is
consed in front, so List.lookup returns the most recent assignment,
which is Python dict-overwrite semantics. -/
def buildPageDict (pages : List Page) : List (String × Page) :=
  pages.foldl (fun d p => (p.key, p) :: d) []

/-- KeyRef construction (dataset.py lines 294-299): the dictionary lookup
self.video.page_dict[element.text], raising KeyError on a missing
key. -/
def buildKeyRef (page_dict : List (String × Page)) (e : KeyRefElem) : Except KeyError KeyRef :=
  match List.lookup e.key page_dict with
  | some p => .ok { page := p, similarity := e.similarity }
  | none => .error { key := e.key }

/-- Screen construction (dataset.py lines 216-245): builds the keyref
children, propagating a KeyError; the derived fields are the functions
defined on Screen above. -/
def buildScreen (videoWidth videoHeight : Int) (page_dict : List (String × Page))
    (e : ScreenElem) : Except KeyError Screen :=
  match mapExcept (buildKeyRef page_dict) e.keyrefs with
  | .error err => .error err
  | .ok krs =>
    .ok { condition := e.condition, bounds := e.bounds
          videoWidth := videoWidth, videoHeight := videoHeight, keyrefs := krs }

/-- Frame construction (dataset.py lines 180-194): builds the screen
children against the already-built page dictionary and accumulates their
keyrefs. -/
def buildFrame (video_dirname : String) (videoWidth videoHeight : Int)
    (page_dict : List (String × Page)) (e : FrameElem) : Except KeyError Frame :=
  match mapExcept (buildScreen videoWidth videoHeight page_dict) e.screens with
  | .error err => .error err
  | .ok ss =>
    .ok { filename := video_dirname ++ "/" ++ e.filename, number := e.number
          screens := ss, keyrefs := (ss.map Screen.keyrefs).flatten }

/-- The flattened page list of a video element, exactly as buildVideo
computes it (dataset.py lines 100-105): all documents first, in order,
each contributing its pages in order. -/
def videoPages (dataset_dirname : String) (e : VideoElem) : List Page :=
  ((e.documents.map (buildDocument (dataset_dirname ++ "/" ++ e.dirname))).map
    Document.pages).flatten

/-- Video construction (dataset.py lines 80-117): documents and the
complete page dictionary are built before any frame, screen or keyref is
processed; every keyref of every frame resolves against that finished
dictionary. -/
def buildVideo (dataset_dirname : String) (e : VideoElem) : Except KeyError Video :=
  let dirname := dataset_dirname ++ "/" ++ e.dirname
  let documents := e.documents.map (buildDocument dirname)
  let pages := videoPages dataset_dirname e
  let page_dict := buildPageDict pages
  match mapExcept (buildFrame dirname e.width e.height page_dict) e.frames with
  | .error err => .error err
  | .ok frames =>
    .ok { dirname := dirname, fps := e.fps, frames_num := e.frames_num
          width := e.width, height := e.height, uri := e.uri
          documents := documents, pages := pages, page_dict := page_dict
          frames := frames, screens := (frames.map Frame.screens).flatten
          keyrefs := (frames.map Frame.keyrefs).flatten }

/-- Dataset construction (dataset.py lines 21-53): builds the videos in
order and concatenates their entity lists; a KeyError raised inside any
video's construction propagates and no Dataset object is produced. -/
def buildDataset (dirname : String) (ves : List VideoElem) : Except KeyError Dataset :=
  match mapExcept (buildVideo dirname) ves with
  | .error err => .error err
  | .ok vids =>
    .ok { dirname := dirname, videos := vids
          documents := (vids.map Video.documents).flatten
          pages := (vids.map Video.pages).flatten
          frames := (vids.map Video.frames).flatten
          screens := (vids.map Video.screens).flatten
          keyrefs := (vids.map Video.keyrefs).flatten }

/-- All keyref elements of a video element, over all its frames and
screens. -/
def videoKeyRefElems (e : VideoElem) : List KeyRefElem :=
  (((e.frames.map FrameElem.screens).flatten).map ScreenElem.keyrefs).flatten

/-- The page occurring last, in document and page order, among the pages
of a video that carry a given key; written from the wording of the
duplicate-key claim. -/
def lastWithKey (pages : List Page) (k : String) : Option Page :=
  pages.reverse.find? (fun p => p.key == k)

theorem buildPageDict_foldl (ps : List Page) (acc : List (String × Page)) :
    ps.foldl (fun d p => (p.key, p) :: d) acc = (ps.map fun p => (p.key, p)).reverse ++ acc := by
  induction ps generalizing acc with
  | nil => simp
  | cons p ps ih => simp [List.foldl_cons, ih]

theorem buildPageDict_eq (ps : List Page) :
    buildPageDict ps = (ps.map fun p => (p.key, p)).reverse := by
  simpa using buildPageDict_foldl ps []

theorem lookup_map_key (k : String) (ps : List Page) :
    List.lookup k (ps.map fun p => (p.key, p)) = ps.find? (fun p => p.key == k) := by
  induction ps with
  | nil => rfl
  | cons p ps ih =>
    by_cases h : p.key = k
    · simp [List.lookup_cons, List.find?_cons, h]
    · have h1 : (k == p.key) = false := by
        simp only [beq_eq_false_iff_ne, ne_eq]
        exact fun hc => h hc.symm
      have h2 : (p.key == k) = false := by
        simp only [beq_eq_false_iff_ne, ne_eq]
        exact h
      simp [List.lookup_cons, List.find?_cons, h1, h2, ih]

/-- The page dictionary realizes dict-overwrite semantics: looking a key
up yields exactly the last page, in document and page order, carrying
that key. -/
theorem pageDict_lookup (ps : List Page) (k : String) :
    List.lookup k (buildPageDict ps) = lastWithKey ps k := by
  rw [buildPageDict_eq, ← List.map_reverse, lookup_map_key, lastWithKey]

theorem lastWithKey_key {ps : List Page} {k : String} {p : Page}
    (h : lastWithKey ps k = some p) : p.key = k := by
  have := List.find?_some h
  simpa using this

theorem lastWithKey_mem {ps : List Page} {k : String} {p : Page}
    (h : lastWithKey ps k = some p) : p ∈ ps := by
  have := List.mem_of_find?_eq_some h
  simpa using this

theorem lastWithKey_isSome {ps : List Page} {k : String} {p : Page}
    (hmem : p ∈ ps) (hkey : p.key = k) : ∃ q, lastWithKey ps k = some q := by
  have : (ps.reverse.find? (fun p => p.key == k)).isSome := by
    rw [List.find?_isSome]
    exact ⟨p, List.mem_reverse.mpr hmem, by simp [hkey]⟩
  obtain ⟨q, hq⟩ := Option.isSome_iff_exists.mp this
  exact ⟨q, hq⟩

theorem mapExcept_cons_ok {f : α → Except ε β} {a : α} {as : List α} {bs : List β}
    (h : mapExcept f (a :: as) = .ok bs) :
    ∃ b bs2, f a = .ok b ∧ mapExcept f as = .ok bs2 ∧ bs = b :: bs2 := by
  rw [mapExcept] at h
  cases hfa : f a with
  | error e =>
    rw [hfa] at h
    exact Except.noConfusion h
  | ok b =>
    rw [hfa] at h
    cases hrec : mapExcept f as with
    | error e =>
      rw [hrec] at h
      exact Except.noConfusion h
    | ok bs2 =>
      rw [hrec] at h
      simp only [Except.ok.injEq] at h
      exact ⟨b, bs2, rfl, rfl, h.symm⟩

theorem mapExcept_cons_error {f : α → Except ε β} {a : α} {as : List α} {e : ε}
    (h : mapExcept f (a :: as) = .error e) :
    f a = .error e ∨ ∃ b, f a = .ok b ∧ mapExcept f as = .error e := by
  rw [mapExcept] at h
  cases hfa : f a with
  | error e2 =>
    rw [hfa] at h
    simp only [Except.error.injEq] at h
    exact Or.inl (by rw [h])
  | ok b =>
    rw [hfa] at h
    cases hrec : mapExcept f as with
    | error e2 =>
      rw [hrec] at h
      simp only [Except.error.injEq] at h
      exact Or.inr ⟨b, rfl, by rw [h]⟩
    | ok bs2 =>
      rw [hrec] at h
      exact Except.noConfusion h

theorem mapExcept_ok_forall {f : α → Except ε β} {as : List α} {bs : List β}
    (h : mapExcept f as = .ok bs) : ∀ a ∈ as, ∃ b, f a = .ok b := by
  induction as generalizing bs with
  | nil =>
    intro a ha
    exact absurd ha (List.not_mem_nil a)
  | cons a as ih =>
    intro a' ha'
    obtain ⟨b, bs2, hfa, hrec, rfl⟩ := mapExcept_cons_ok h
    rcases List.mem_cons.mp ha' with rfl | hmem
    · exact ⟨b, hfa⟩
    · exact ih hrec a' hmem

theorem mapExcept_mem_ok {f : α → Except ε β} {as : List α} {bs : List β}
    (h : mapExcept f as = .ok bs) : ∀ b ∈ bs, ∃ a ∈ as, f a = .ok b := by
  induction as generalizing bs with
  | nil =>
    intro b hb
    rw [mapExcept] at h
    simp only [Except.ok.injEq] at h
    rw [← h] at hb
    exact absurd hb (List.not_mem_nil b)
  | cons a as ih =>
    intro b' hb'
    obtain ⟨b, bs2, hfa, hrec, rfl⟩ := mapExcept_cons_ok h
    rcases List.mem_cons.mp hb' with rfl | hmem
    · exact ⟨a, List.mem_cons_self a as, hfa⟩
    · obtain ⟨a2, ha2, hfa2⟩ := ih hrec b' hmem
      exact ⟨a2, List.mem_cons_of_mem a ha2, hfa2⟩

theorem mapExcept_ok_of_forall {f : α → Except ε β} :
    ∀ {as : List α}, (∀ a ∈ as, ∃ b, f a = .ok b) → ∃ bs, mapExcept f as = .ok bs := by
  intro as
  induction as with
  | nil => exact fun _ => ⟨[], rfl⟩
  | cons a as ih =>
    intro hall
    obtain ⟨b, hb⟩ := hall a (List.mem_cons_self a as)
    obtain ⟨bs, hbs⟩ := ih fun a2 ha2 => hall a2 (List.mem_cons_of_mem a ha2)
    refine ⟨b :: bs, ?_⟩
    rw [mapExcept]
    simp only [hb, hbs]

theorem mapExcept_error_mem {f : α → Except ε β} {as : List α} {e : ε}
    (h : mapExcept f as = .error e) : ∃ a ∈ as, f a = .error e := by
  induction as with
  | nil =>
    rw [mapExcept] at h
    exact absurd h (by simp)
  | cons a as ih =>
    rcases mapExcept_cons_error h with hfa | ⟨b, hfa, hrec⟩
    · exact ⟨a, List.mem_cons_self a as, hfa⟩
    · obtain ⟨a2, ha2, hfa2⟩ := ih hrec
      exact ⟨a2, List.mem_cons_of_mem a ha2, hfa2⟩

theorem buildKeyRef_ok_inv {pd : List (String × Page)} {kre : KeyRefElem} {kr : KeyRef}
    (h : buildKeyRef pd kre = .ok kr) :
    List.lookup kre.key pd = some kr.page ∧ kr.similarity = kre.similarity := by
  unfold buildKeyRef at h
  cases hl : List.lookup kre.key pd with
  | none =>
    rw [hl] at h
    exact Except.noConfusion h
  | some p =>
    rw [hl] at h
    simp only [Except.ok.injEq] at h
    rw [← h]
    exact ⟨rfl, rfl⟩

theorem buildKeyRef_error_inv {pd : List (String × Page)} {kre : KeyRefElem} {err : KeyError}
    (h : buildKeyRef pd kre = .error err) :
    err.key = kre.key ∧ List.lookup kre.key pd = none := by
  unfold buildKeyRef at h
  cases hl : List.lookup kre.key pd with
  | none =>
    rw [hl] at h
    simp only [Except.error.injEq] at h
    rw [← h]
    exact ⟨rfl, rfl⟩
  | some p =>
    rw [hl] at h
    exact Except.noConfusion h

theorem buildScreen_ok_keyrefs {w h : Int} {pd : List (String × Page)} {se : ScreenElem}
    {s : Screen} (hs : buildScreen w h pd se = .ok s) :
    mapExcept (buildKeyRef pd) se.keyrefs = .ok s.keyrefs := by
  unfold buildScreen at hs
  cases hk : mapExcept (buildKeyRef pd) se.keyrefs with
  | error e =>
    rw [hk] at hs
    exact Except.noConfusion hs
  | ok krs =>
    rw [hk] at hs
    simp only [Except.ok.injEq] at hs
    rw [← hs]

theorem buildScreen_error_inv {w h : Int} {pd : List (String × Page)} {se : ScreenElem}
    {err : KeyError} (hs : buildScreen w h pd se = .error err) :
    ∃ kre ∈ se.keyrefs, buildKeyRef pd kre = .error err := by
  unfold buildScreen at hs
  cases hk : mapExcept (buildKeyRef pd) se.keyrefs with
  | error e =>
    rw [hk] at hs
    simp only [Except.error.injEq] at hs
    rw [← hs]
    exact mapExcept_error_mem hk
  | ok krs =>
    rw [hk] at hs
    exact Except.noConfusion hs

theorem buildScreen_ok_of_forall {w h : Int} {pd : List (String × Page)} {se : ScreenElem}
    (hall : ∀ kre ∈ se.keyrefs, ∃ kr, buildKeyRef pd kre = .ok kr) :
    ∃ s, buildScreen w h pd se = .ok s := by
  obtain ⟨krs, hk⟩ := mapExcept_ok_of_forall hall
  refine ⟨{ condition := se.condition, bounds := se.bounds, videoWidth := w,
            videoHeight := h, keyrefs := krs }, ?_⟩
  unfold buildScreen
  rw [hk]

theorem buildFrame_ok_inv {dn : String} {w h : Int} {pd : List (String × Page)}
    {fe : FrameElem} {fr : Frame} (hf : buildFrame dn w h pd fe = .ok fr) :
    ∃ ss, mapExcept (buildScreen w h pd) fe.screens = .ok ss
      ∧ fr.screens = ss ∧ fr.keyrefs = (ss.map Screen.keyrefs).flatten := by
  unfold buildFrame at hf
  cases hk : mapExcept (buildScreen w h pd) fe.screens with
  | error e =>
    rw [hk] at hf
    exact Except.noConfusion hf
  | ok ss =>
    rw [hk] at hf
    simp only [Except.ok.injEq] at hf
    exact ⟨ss, rfl, by rw [← hf], by rw [← hf]⟩

theorem buildFrame_error_inv {dn : String} {w h : Int} {pd : List (String × Page)}
    {fe : FrameElem} {err : KeyError} (hf : buildFrame dn w h pd fe = .error err) :
    ∃ se ∈ fe.screens, buildScreen w h pd se = .error err := by
  unfold buildFrame at hf
  cases hk : mapExcept (buildScreen w h pd) fe.screens with
  | error e =>
    rw [hk] at hf
    simp only [Except.error.injEq] at hf
    rw [← hf]
    exact mapExcept_error_mem hk
  | ok ss =>
    rw [hk] at hf
    exact Except.noConfusion hf

theorem buildFrame_ok_of_forall {dn : String} {w h : Int} {pd : List (String × Page)}
    {fe : FrameElem} (hall : ∀ se ∈ fe.screens, ∃ s, buildScreen w h pd se = .ok s) :
    ∃ fr, buildFrame dn w h pd fe = .ok fr := by
  obtain ⟨ss, hk⟩ := mapExcept_ok_of_forall hall
  refine ⟨{ filename := dn ++ "/" ++ fe.filename, number := fe.number, screens := ss,
            keyrefs := (ss.map Screen.keyrefs).flatten }, ?_⟩
  unfold buildFrame
  rw [hk]

theorem buildVideo_ok_inv {dd : String} {ve : VideoElem} {v : Video}
    (hv : buildVideo dd ve = .ok v) :
    ∃ frames, mapExcept (buildFrame (dd ++ "/" ++ ve.dirname) ve.width ve.height
        (buildPageDict (videoPages dd ve))) ve.frames = .ok frames
      ∧ v.pages = videoPages dd ve
      ∧ v.page_dict = buildPageDict (videoPages dd ve)
      ∧ v.frames = frames
      ∧ v.keyrefs = (frames.map Frame.keyrefs).flatten := by
  unfold buildVideo at hv
  simp only [] at hv
  cases hk : mapExcept (buildFrame (dd ++ "/" ++ ve.dirname) ve.width ve.height
      (buildPageDict (videoPages dd ve))) ve.frames with
  | error e =>
    rw [hk] at hv
    exact Except.noConfusion hv
  | ok frames =>
    rw [hk] at hv
    simp only [Except.ok.injEq] at hv
    exact ⟨frames, rfl, by rw [← hv], by rw [← hv], by rw [← hv], by rw [← hv]⟩

theorem buildVideo_error_inv {dd : String} {ve : VideoElem} {err : KeyError}
    (hv : buildVideo dd ve = .error err) :
    ∃ kre ∈ videoKeyRefElems ve,
      buildKeyRef (buildPageDict (videoPages dd ve)) kre = .error err := by
  unfold buildVideo at hv
  simp only [] at hv
  cases hk : mapExcept (buildFrame (dd ++ "/" ++ ve.dirname) ve.width ve.height
      (buildPageDict (videoPages dd ve))) ve.frames with
  | error e =>
    rw [hk] at hv
    simp only [Except.error.injEq] at hv
    rw [← hv]
    obtain ⟨fe, hfe, hferr⟩ := mapExcept_error_mem hk
    obtain ⟨se, hse, hserr⟩ := buildFrame_error_inv hferr
    obtain ⟨kre, hkre, hkerr⟩ := buildScreen_error_inv hserr
    refine ⟨kre, ?_, hkerr⟩
    unfold videoKeyRefElems
    rw [List.mem_flatten]
    refine ⟨se.keyrefs, ?_, hkre⟩
    rw [List.mem_map]
    refine ⟨se, ?_, rfl⟩
    rw [List.mem_flatten]
    exact ⟨fe.screens, List.mem_map_of_mem FrameElem.screens hfe, hse⟩
  | ok frames =>
    rw [hk] at hv
    exact Except.noConfusion hv

theorem videoKeyRefElems_elim {ve : VideoElem} {kre : KeyRefElem}
    (h : kre ∈ videoKeyRefElems ve) :
    ∃ fe ∈ ve.frames, ∃ se ∈ fe.screens, kre ∈ se.keyrefs := by
  unfold videoKeyRefElems at h
  rw [List.mem_flatten] at h
  obtain ⟨krs, hkrs, hkre⟩ := h
  rw [List.mem_map] at hkrs
  obtain ⟨se, hse, rfl⟩ := hkrs
  rw [List.mem_flatten] at hse
  obtain ⟨ss, hss, hse2⟩ := hse
  rw [List.mem_map] at hss
  obtain ⟨fe, hfe, rfl⟩ := hss
  exact ⟨fe, hfe, se, hse2, hkre⟩

theorem key_mem_videoPages (dd : String) {ve : VideoElem} {k : String}
    (h : ∃ de ∈ ve.documents, ∃ pe ∈ de.pages, pe.key = k) :
    ∃ p ∈ videoPages dd ve, p.key = k := by
  obtain ⟨de, hde, pe, hpe, hkey⟩ := h
  refine ⟨buildPage (dd ++ "/" ++ ve.dirname) pe, ?_, hkey⟩
  unfold videoPages
  rw [List.mem_flatten]
  refine ⟨(buildDocument (dd ++ "/" ++ ve.dirname) de).pages, ?_, ?_⟩
  · rw [List.mem_map]
    exact ⟨buildDocument (dd ++ "/" ++ ve.dirname) de,
      List.mem_map_of_mem (buildDocument (dd ++ "/" ++ ve.dirname)) hde, rfl⟩
  · unfold buildDocument
    exact List.mem_map_of_mem (buildPage (dd ++ "/" ++ ve.dirname)) hpe

theorem keyref_resolves (dd : String) (ve : VideoElem) (kre : KeyRefElem)
    (h : ∃ de ∈ ve.documents, ∃ pe ∈ de.pages, pe.key = kre.key) :
    ∃ kr, buildKeyRef (buildPageDict (videoPages dd ve)) kre = .ok kr
      ∧ kr.page ∈ videoPages dd ve ∧ kr.page.key = kre.key
      ∧ kr.similarity = kre.similarity := by
  obtain ⟨p, hmem, hkey⟩ := key_mem_videoPages dd h
  obtain ⟨q, hq⟩ := lastWithKey_isSome hmem hkey
  refine ⟨{ page := q, similarity := kre.similarity }, ?_, lastWithKey_mem hq,
    lastWithKey_key hq, rfl⟩
  unfold buildKeyRef
  rw [pageDict_lookup, hq]

/-- C4: a cross-reference whose key matches the key of some page element
anywhere among the video's documents resolves, against the page
dictionary the video builds from all its documents before processing any
frame, to a page of that video carrying that key.  Position of the page
among the documents is immaterial: the hypothesis only requires
membership. -/
theorem C4_keyref_resolution (dd : String) (ve : VideoElem) (kre : KeyRefElem)
    (h : ∃ de ∈ ve.documents, ∃ pe ∈ de.pages, pe.key = kre.key) :
    ∃ kr, buildKeyRef (buildPageDict (videoPages dd ve)) kre = .ok kr
      ∧ kr.page ∈ videoPages dd ve ∧ kr.page.key = kre.key
      ∧ kr.similarity = kre.similarity :=
  keyref_resolves dd ve kre h

/-- Page element fixtures for the construction witnesses. -/
def pageElemOne : PageElem := { filename := "slides/001.png", key := "p1", number := 1 }

/-- Second page element fixture, in a different document, reusing key
layout. -/
def pageElemTwo : PageElem := { filename := "slides/002.png", key := "p2", number := 2 }

/-- Screen element fixture referencing key p2, which only the second
document defines. -/
def screenElemRef : ScreenElem :=
  { condition := "normal", bounds := quadIn
    keyrefs := [{ key := "p2", similarity := "full" }] }

/-- Video element fixture: the frame's keyref points at a page of the
second document. -/
def videoElemRef : VideoElem :=
  { dirname := "video1", fps := 25, frames_num := 100, width := 640, height := 480
    uri := "https://example.com/video1"
    documents := [{ filename := "doc1.pdf", pages := [pageElemOne] },
                  { filename := "doc2.pdf", pages := [pageElemTwo] }]
    frames := [{ filename := "frames/000001.png", number := 1, screens := [screenElemRef] }] }

/-- Witness for C4: the concrete keyref to p2 resolves against the
two-document video. -/
theorem C4_keyref_resolution_witness :
    ∃ kr, buildKeyRef (buildPageDict (videoPages "dataset" videoElemRef))
        { key := "p2", similarity := "full" } = .ok kr
      ∧ kr.page ∈ videoPages "dataset" videoElemRef
      ∧ kr.page.key = "p2" ∧ kr.similarity = "full" :=
  C4_keyref_resolution "dataset" videoElemRef { key := "p2", similarity := "full" }
    ⟨{ filename := "doc2.pdf", pages := [pageElemTwo] }, by simp [videoElemRef],
      pageElemTwo, by simp, rfl⟩

theorem buildVideo_ok_of_forall {dd : String} {ve : VideoElem}
    (hall : ∀ fe ∈ ve.frames, ∃ fr, buildFrame (dd ++ "/" ++ ve.dirname) ve.width ve.height
      (buildPageDict (videoPages dd ve)) fe = .ok fr) :
    ∃ v, buildVideo dd ve = .ok v := by
  obtain ⟨frames, hframes⟩ := mapExcept_ok_of_forall hall
  refine ⟨{ dirname := dd ++ "/" ++ ve.dirname, fps := ve.fps, frames_num := ve.frames_num,
            width := ve.width, height := ve.height, uri := ve.uri,
            documents := ve.documents.map (buildDocument (dd ++ "/" ++ ve.dirname)),
            pages := videoPages dd ve, page_dict := buildPageDict (videoPages dd ve),
            frames := frames, screens := (frames.map Frame.screens).flatten,
            keyrefs := (frames.map Frame.keyrefs).flatten }, ?_⟩
  unfold buildVideo
  simp only []
  rw [hframes]

/-- C5 amended: a cross-reference whose key is absent from the owning
video's page dictionary makes the whole video construction fail with the
KeyError raised by the dictionary lookup at dataset.py line 296 — the
generic Python mapping error, whose value is a missing key and which does
not carry the video — and no Video object is produced, so no partial
graph is exposed. -/
theorem C5_missing_key_amended (dd : String) (ve : VideoElem)
    (h : ∃ kre ∈ videoKeyRefElems ve,
      List.lookup kre.key (buildPageDict (videoPages dd ve)) = none) :
    ∃ err : KeyError, buildVideo dd ve = .error err
      ∧ List.lookup err.key (buildPageDict (videoPages dd ve)) = none
      ∧ ∀ v : Video, buildVideo dd ve ≠ .ok v := by
  obtain ⟨kre, hkre, hnone⟩ := h
  cases hres : buildVideo dd ve with
  | ok v =>
    exfalso
    obtain ⟨fe, hfe, se, hse, hk⟩ := videoKeyRefElems_elim hkre
    obtain ⟨frames, hframes, hpages, hdict, hvf, hvk⟩ := buildVideo_ok_inv hres
    obtain ⟨fr, hfr⟩ := mapExcept_ok_forall hframes fe hfe
    obtain ⟨ss, hss, hfrs, hfrk⟩ := buildFrame_ok_inv hfr
    obtain ⟨s, hs⟩ := mapExcept_ok_forall hss se hse
    have hkrefs := buildScreen_ok_keyrefs hs
    obtain ⟨kr, hkr⟩ := mapExcept_ok_forall hkrefs kre hk
    obtain ⟨hlook, -⟩ := buildKeyRef_ok_inv hkr
    rw [hnone] at hlook
    exact Option.noConfusion hlook
  | error err =>
    refine ⟨err, rfl, ?_, ?_⟩
    · obtain ⟨kre2, hkre2, herr⟩ := buildVideo_error_inv hres
      obtain ⟨hkey, hnone2⟩ := buildKeyRef_error_inv herr
      rw [hkey]
      exact hnone2
    · intro v hv
      exact Except.noConfusion hv

/-- Video element whose single keyref points at a key no document of the
video defines. -/
def videoElemBad : VideoElem :=
  { dirname := "video2", fps := 25, frames_num := 100, width := 640, height := 480
    uri := "https://example.com/video2"
    documents := [{ filename := "doc1.pdf", pages := [pageElemOne] }]
    frames := [{ filename := "frames/000001.png", number := 1
                 screens := [{ condition := "normal", bounds := quadIn
                               keyrefs := [{ key := "missing", similarity := "full" }] }] }] }

/-- Counterexample to C5 as stated: on a concrete dataset whose keyref
key resolves to no page, construction aborts with the generic mapping
KeyError whose value is exactly the missing key — it carries no video
name and is not a distinct referential error kind. -/
theorem C5_counterexample :
    buildDataset "dataset" [videoElemBad] = .error { key := "missing" } := rfl

/-- Witness for C5 amended: the concrete video with the unresolvable
keyref fails with a KeyError whose key is absent from the dictionary, and
no Video is produced. -/
theorem C5_missing_key_amended_witness :
    ∃ err : KeyError, buildVideo "dataset" videoElemBad = .error err
      ∧ List.lookup err.key (buildPageDict (videoPages "dataset" videoElemBad)) = none
      ∧ ∀ v : Video, buildVideo "dataset" videoElemBad ≠ .ok v :=
  C5_missing_key_amended "dataset" videoElemBad
    ⟨{ key := "missing", similarity := "full" }, by decide, by decide⟩

/-- C10: as long as every cross-reference key occurs among the video's
page elements — in particular, nothing forbids several pages sharing one
key — video construction succeeds with no error, the page list keeps
every page including earlier duplicates, and every cross-reference
resolves to the page occurring last, in document and page order, among
those with its key. -/
theorem C10_duplicate_keys (dd : String) (ve : VideoElem)
    (h : ∀ kre ∈ videoKeyRefElems ve, ∃ de ∈ ve.documents, ∃ pe ∈ de.pages,
      pe.key = kre.key) :
    ∃ v, buildVideo dd ve = .ok v
      ∧ v.pages = videoPages dd ve
      ∧ ∀ kr ∈ v.keyrefs, lastWithKey v.pages kr.page.key = some kr.page := by
  have hall : ∀ fe ∈ ve.frames, ∃ fr,
      buildFrame (dd ++ "/" ++ ve.dirname) ve.width ve.height
        (buildPageDict (videoPages dd ve)) fe = .ok fr := by
    intro fe hfe
    apply buildFrame_ok_of_forall
    intro se hse
    apply buildScreen_ok_of_forall
    intro kre hkre
    have hmem : kre ∈ videoKeyRefElems ve := by
      unfold videoKeyRefElems
      rw [List.mem_flatten]
      refine ⟨se.keyrefs, ?_, hkre⟩
      rw [List.mem_map]
      refine ⟨se, ?_, rfl⟩
      rw [List.mem_flatten]
      exact ⟨fe.screens, List.mem_map_of_mem FrameElem.screens hfe, hse⟩
    obtain ⟨kr, hkr, -⟩ := keyref_resolves dd ve kre (h kre hmem)
    exact ⟨kr, hkr⟩
  obtain ⟨v, hv⟩ := buildVideo_ok_of_forall hall
  obtain ⟨frames, hframes, hpages, hdict, hvf, hvk⟩ := buildVideo_ok_inv hv
  refine ⟨v, hv, hpages, ?_⟩
  intro kr hkr
  rw [hvk, List.mem_flatten] at hkr
  obtain ⟨krs, hkrs, hkr2⟩ := hkr
  rw [List.mem_map] at hkrs
  obtain ⟨fr, hfr, rfl⟩ := hkrs
  obtain ⟨fe, hfe, hfrok⟩ := mapExcept_mem_ok hframes fr hfr
  obtain ⟨ss, hss, hfrs, hfrk⟩ := buildFrame_ok_inv hfrok
  rw [hfrk, List.mem_flatten] at hkr2
  obtain ⟨krs2, hkrs2, hkr3⟩ := hkr2
  rw [List.mem_map] at hkrs2
  obtain ⟨s, hsmem, rfl⟩ := hkrs2
  obtain ⟨se, hsemem, hsok⟩ := mapExcept_mem_ok hss s hsmem
  have hkrefs := buildScreen_ok_keyrefs hsok
  obtain ⟨kre, hkremem, hkrok⟩ := mapExcept_mem_ok hkrefs kr hkr3
  obtain ⟨hlook, -⟩ := buildKeyRef_ok_inv hkrok
  rw [pageDict_lookup] at hlook
  have hkey : kr.page.key = kre.key := lastWithKey_key hlook
  rw [hpages, hkey]
  exact hlook

/-- First of two page elements sharing the key dup. -/
def pageElemDupA : PageElem := { filename := "slides/001.png", key := "dup", number := 1 }

/-- Second page element with the same key dup, occurring later. -/
def pageElemDupB : PageElem := { filename := "slides/002.png", key := "dup", number := 2 }

/-- Video element whose single document defines the key dup twice and
whose single keyref uses it. -/
def videoElemDup : VideoElem :=
  { dirname := "video3", fps := 25, frames_num := 100, width := 640, height := 480
    uri := "https://example.com/video3"
    documents := [{ filename := "doc1.pdf", pages := [pageElemDupA, pageElemDupB] }]
    frames := [{ filename := "frames/000001.png", number := 1
                 screens := [{ condition := "normal", bounds := quadIn
                               keyrefs := [{ key := "dup", similarity := "full" }] }] }] }

/-- Witness for C10: the duplicate-key video builds without error, and
the concrete dictionary lookup returns the later of the two pages with
key dup, while both pages stay in the page list. -/
theorem C10_duplicate_keys_witness :
    (∃ v, buildVideo "dataset" videoElemDup = .ok v
      ∧ v.pages = videoPages "dataset" videoElemDup
      ∧ ∀ kr ∈ v.keyrefs, lastWithKey v.pages kr.page.key = some kr.page)
    ∧ List.lookup "dup" (buildPageDict (videoPages "dataset" videoElemDup))
        = some (buildPage ("dataset" ++ "/" ++ "video3") pageElemDupB)
    ∧ videoPages "dataset" videoElemDup
        = [buildPage ("dataset" ++ "/" ++ "video3") pageElemDupA,
           buildPage ("dataset" ++ "/" ++ "video3") pageElemDupB] := by
  refine ⟨C10_duplicate_keys "dataset" videoElemDup ?_, by decide, by decide⟩
  intro kre hkre
  simp only [videoKeyRefElems, videoElemDup, List.map_cons, List.map_nil, List.flatten_cons,
    List.flatten_nil, List.append_nil, List.mem_cons, List.not_mem_nil, or_false] at hkre
  subst hkre
  exact ⟨{ filename := "doc1.pdf", pages := [pageElemDupA, pageElemDupB] }, by simp [videoElemDup],
    pageElemDupB, by simp, rfl⟩

/-- Squared Euclidean distance between two integer corners, as a natural
number. -/
def sqDist (p q : Coordinate) : Nat :=
  ((q.x - p.x) ^ 2 + (q.y - p.y) ^ 2).toNat

/-- One distance estimate of review.py lines 12-19 after the int()
coercion of line 20-21: the corners are integral, so np.sqrt is the exact
square root of the natural number sqDist and int() truncation of it is
Nat.sqrt. -/
def distFloor (p q : Coordinate) : Nat :=
  Nat.sqrt (sqDist p q)

/-- An image: a pixel grid of known size.  Pixel values are opaque to
every claim; a single rational channel suffices. -/
structure Image where
  width : Nat
  height : Nat
  pixel : Nat → Nat → ℚ

/-- Row operation of fraction-free Gaussian elimination: scale the row by
the pivot entry and subtract the pivot row scaled by the row entry, so
the entry in the pivot column becomes zero while everything stays an
integer.  Scaling a row by a nonzero factor changes neither the solution
set nor singularity, so this realizes the same elimination cv2's LU solve
performs in floating point. -/
def elimRow (c : Nat) (p r : List Int) : List Int :=
  List.zipWith (fun a b => a * p.getD c 0 - r.getD c 0 * b) r p

/-- Find a row with a nonzero entry in column c, returning it and the
remaining rows. -/
def findPivot (c : Nat) : List (List Int) → Option (List Int × List (List Int))
  | [] => none
  | r :: rs =>
    if r.getD c 0 ≠ 0 then some (r, rs)
    else
      match findPivot c rs with
      | some pr => some (pr.1, r :: pr.2)
      | none => none

/-- Forward elimination with row pivoting over the given pivot columns.
Returns the pivot rows, or none when some column admits no pivot —
exactly the singular case in which LU decomposition fails. -/
def reduceRows : List Nat → List (List Int) → Option (List (Nat × List Int))
  | [], _ => some []
  | c :: cs, rows =>
    match findPivot c rows with
    | none => none
    | some pr =>
      match reduceRows cs (pr.2.map (fun r => elimRow c pr.1 r)) with
      | none => none
      | some pivots => some ((c, pr.1) :: pivots)

/-- Back substitution through the pivot rows of an augmented 8 by 9
system (column 8 holds the right-hand side), now in exact rational
arithmetic: each pivot variable is the right-hand side minus the already
solved later variables, divided by the pivot entry. -/
def backSubst : List (Nat × List Int) → List (Nat × ℚ)
  | [] => []
  | cp :: rest =>
    let xs := backSubst rest
    (cp.1, ((cp.2.getD 8 0 : ℚ)
      - xs.foldl (fun acc cv => acc + (cp.2.getD cv.1 0 : ℚ) * cv.2) 0)
      / (cp.2.getD cp.1 0 : ℚ)) :: xs

/-- Solve an augmented integer linear system by Gaussian elimination;
none when the coefficient matrix is singular. -/
def gaussSolve (cols : List Nat) (rows : List (List Int)) : Option (List ℚ) :=
  match reduceRows cols rows with
  | none => none
  | some pivots =>
    let xs := backSubst pivots
    some (cols.map fun c => ((xs.find? fun cv => cv.1 == c).map Prod.snd).getD 0)

/-- The 8 by 9 augmented linear system cv2.getPerspectiveTransform sets
up for four point pairs: for each pair, one equation for the destination
x coordinate and, in the second block, one for the destination y
coordinate, in the eight homography coefficients. -/
def perspectiveSystem (src dst : List (Int × Int)) : List (List Int) :=
  ((src.zip dst).map fun pq =>
    [pq.1.1, pq.1.2, 1, 0, 0, 0, -(pq.1.1 * pq.2.1), -(pq.1.2 * pq.2.1), pq.2.1])
  ++ ((src.zip dst).map fun pq =>
    [0, 0, 0, pq.1.1, pq.1.2, 1, -(pq.1.1 * pq.2.2), -(pq.1.2 * pq.2.2), pq.2.2])

/-- Model of cv2.getPerspectiveTransform: solve the 8 by 9 system with LU
elimination and append the fixed ninth coefficient 1.  When the system is
singular, cv2's internal solve reports failure but getPerspectiveTransform
raises no error and the matrix content is unspecified; the model returns
none for that case. -/
def getPerspectiveTransform (src dst : List (Int × Int)) : Option (List ℚ) :=
  (gaussSolve [0, 1, 2, 3, 4, 5, 6, 7] (perspectiveSystem src dst)).map (fun cs => cs ++ [1])

/-- Adjugate inverse of a 3 by 3 matrix given row-major; none when the
determinant vanishes. -/
def invert3x3 (m : List ℚ) : Option (List ℚ) :=
  let a := m.getD 0 0
  let b := m.getD 1 0
  let c := m.getD 2 0
  let d := m.getD 3 0
  let e := m.getD 4 0
  let f := m.getD 5 0
  let g := m.getD 6 0
  let hh := m.getD 7 0
  let i := m.getD 8 0
  let det := a * (e * i - f * hh) - b * (d * i - f * g) + c * (d * hh - e * g)
  if det = 0 then none
  else some [(e * i - f * hh) / det, (c * hh - b * i) / det, (b * f - c * e) / det,
             (f * g - d * i) / det, (a * i - c * g) / det, (c * d - a * f) / det,
             (d * hh - e * g) / det, (b * g - a * hh) / det, (a * e - b * d) / det]

/-- Model of cv2.warpPerspective: allocate an output buffer of exactly
the requested size and fill every output pixel by mapping it through the
inverse of the transform into the source image.  cv2 interpolates
bilinearly; the model samples the nearest source pixel, a simplification
no claim depends on.  cv2.warpPerspective raises nothing when the matrix
is degenerate or missing — the buffer is still produced, with meaningless
content, modelled as zero fill. -/
def warpPerspective (image : Image) (transform : Option (List ℚ)) (dsize : Nat × Nat) : Image :=
  { width := dsize.1
    height := dsize.2
    pixel := fun x y =>
      match transform with
      | none => 0
      | some m =>
        match invert3x3 m with
        | none => 0
        | some im =>
          let w := im.getD 6 0 * (x : ℚ) + im.getD 7 0 * (y : ℚ) + im.getD 8 0
          if w = 0 then 0
          else
            let u := (im.getD 0 0 * (x : ℚ) + im.getD 1 0 * (y : ℚ) + im.getD 2 0) / w
            let v := (im.getD 3 0 * (x : ℚ) + im.getD 4 0 * (y : ℚ) + im.getD 5 0) / w
            let sx := round u
            let sy := round v
            if 0 ≤ sx ∧ sx < (image.width : Int) ∧ 0 ≤ sy ∧ sy < (image.height : Int) then
              image.pixel sx.toNat sy.toNat
            else 0 }

/-- The source point list crop builds (review.py lines 23-24): top left,
top right, bottom right, bottom left.  review.py reads the corners as
floats from the same integral attributes dataset.py reads as ints, so
integer coordinates model them exactly. -/
def cropSrc (q : BoundingQuadrilinear) : List (Int × Int) :=
  [(q.top_left.x, q.top_left.y),
   (q.top_right.x, q.top_right.y),
   (q.bottom_right.x, q.bottom_right.y),
   (q.bottom_left.x, q.bottom_left.y)]

/-- The output size crop computes (review.py lines 12-21): the maxima of
the truncated width estimates and of the truncated height estimates. -/
def cropDims (q : BoundingQuadrilinear) : Nat × Nat :=
  let width_a := distFloor q.bottom_left q.bottom_right
  let width_b := distFloor q.top_left q.top_right
  let height_a := distFloor q.top_right q.bottom_right
  let height_b := distFloor q.top_left q.bottom_left
  (max width_a width_b, max height_a height_b)

/-- The destination point list crop builds (review.py lines 25-28), in
the order matching cropSrc.  The subtractions are float subtractions in
the source, so they may reach minus one when a computed dimension is
zero; hence signed entries. -/
def cropDst (q : BoundingQuadrilinear) : List (Int × Int) :=
  let md := cropDims q
  [(0, 0), ((md.1 : Int) - 1, 0), ((md.1 : Int) - 1, (md.2 : Int) - 1), (0, (md.2 : Int) - 1)]

/-- crop (review.py lines 10-31): compute the output size, build the four
point correspondences, obtain the perspective transform and warp the
input image into an output buffer of exactly the computed size. -/
def crop (image : Image) (q : BoundingQuadrilinear) : Image :=
  let transform := getPerspectiveTransform (cropSrc q) (cropDst q)
  warpPerspective image transform (cropDims q)

/-- Euclidean distance between two integer corners, written from the
specification's wording for the rectifier's size computation. -/
noncomputable def euclideanDist (p q : Coordinate) : ℝ :=
  Real.sqrt (((q.x : ℝ) - (p.x : ℝ)) ^ 2 + ((q.y : ℝ) - (p.y : ℝ)) ^ 2)

theorem sqDist_cast (p q : Coordinate) :
    ((sqDist p q : ℕ) : ℝ) = ((q.x : ℝ) - (p.x : ℝ)) ^ 2 + ((q.y : ℝ) - (p.y : ℝ)) ^ 2 := by
  unfold sqDist
  have hnn : (0 : ℤ) ≤ (q.x - p.x) ^ 2 + (q.y - p.y) ^ 2 := by positivity
  rw [show (((((q.x - p.x) ^ 2 + (q.y - p.y) ^ 2).toNat : ℕ)) : ℝ)
      = ((((q.x - p.x) ^ 2 + (q.y - p.y) ^ 2 : ℤ)) : ℝ) by
    rw [← Int.cast_natCast, Int.toNat_of_nonneg hnn]]
  push_cast
  ring

/-- The truncated integer distance of the code is the floor of the exact
Euclidean distance of the specification. -/
theorem distFloor_eq (p q : Coordinate) : distFloor p q = ⌊euclideanDist p q⌋₊ := by
  unfold distFloor euclideanDist
  rw [← sqDist_cast, Real.nat_floor_real_sqrt_eq_nat_sqrt]

theorem nat_floor_max (x y : ℝ) : ⌊max x y⌋₊ = max ⌊x⌋₊ ⌊y⌋₊ := by
  rcases le_total x y with h | h
  · rw [max_eq_right h, max_eq_right (Nat.floor_le_floor h)]
  · rw [max_eq_left h, max_eq_left (Nat.floor_le_floor h)]

/-- C6: crop's output width is the floor of the larger of the two
Euclidean width estimates (bottom and top edges) and its output height
the floor of the larger of the two height estimates (right and left
edges), both coerced by truncation; the four corners are paired with the
destination corners top-left to the origin, top-right to (width-1, 0),
bottom-right to (width-1, height-1) and bottom-left to (0, height-1);
and the produced output image has exactly the computed size. -/
theorem C6_crop_dimensions (image : Image) (q : BoundingQuadrilinear) :
    (crop image q).width
      = ⌊max (euclideanDist q.bottom_left q.bottom_right)
             (euclideanDist q.top_left q.top_right)⌋₊
    ∧ (crop image q).height
      = ⌊max (euclideanDist q.top_right q.bottom_right)
             (euclideanDist q.top_left q.bottom_left)⌋₊
    ∧ (cropSrc q).zip (cropDst q)
      = [((q.top_left.x, q.top_left.y), ((0 : Int), (0 : Int))),
         ((q.top_right.x, q.top_right.y), (((cropDims q).1 : Int) - 1, (0 : Int))),
         ((q.bottom_right.x, q.bottom_right.y),
           (((cropDims q).1 : Int) - 1, ((cropDims q).2 : Int) - 1)),
         ((q.bottom_left.x, q.bottom_left.y),
           ((0 : Int), ((cropDims q).2 : Int) - 1))] := by
  refine ⟨?_, ?_, rfl⟩
  · show max (distFloor q.bottom_left q.bottom_right) (distFloor q.top_left q.top_right) = _
    rw [distFloor_eq, distFloor_eq, nat_floor_max]
  · show max (distFloor q.top_right q.bottom_right) (distFloor q.top_left q.bottom_left) = _
    rw [distFloor_eq, distFloor_eq, nat_floor_max]

/-- A concrete source image for the rectification examples. -/
def testImage : Image := { width := 640, height := 480, pixel := fun _ _ => 1 }

/-- The quadrilateral of the specification's collinearity example: three
of the corners, (0,0), (50,0) and (100,0), lie on one line. -/
def quadCollinear : BoundingQuadrilinear :=
  { top_left := ⟨0, 0⟩, top_right := ⟨50, 0⟩, bottom_left := ⟨100, 0⟩, bottom_right := ⟨0, 50⟩ }

theorem natSqrt_eq_of (n a : Nat) (h1 : a * a ≤ n) (h2 : n < (a + 1) * (a + 1)) :
    Nat.sqrt n = a := by
  have hle : a ≤ Nat.sqrt n := Nat.le_sqrt.mpr h1
  have hlt : Nat.sqrt n < a + 1 := Nat.sqrt_lt.mpr h2
  omega

/-- The computed output size at the collinear example: width estimates
⌊√12500⌋ = 111 and ⌊√2500⌋ = 50, height estimates ⌊√5000⌋ = 70 and
⌊√10000⌋ = 100. -/
theorem cropDims_quadCollinear : cropDims quadCollinear = (111, 100) := by
  unfold cropDims distFloor
  rw [show sqDist quadCollinear.bottom_left quadCollinear.bottom_right = 12500 by decide]
  rw [show sqDist quadCollinear.top_left quadCollinear.top_right = 2500 by decide]
  rw [show sqDist quadCollinear.top_right quadCollinear.bottom_right = 5000 by decide]
  rw [show sqDist quadCollinear.top_left quadCollinear.bottom_left = 10000 by decide]
  rw [natSqrt_eq_of 12500 111 (by decide) (by decide)]
  rw [natSqrt_eq_of 2500 50 (by decide) (by decide)]
  rw [natSqrt_eq_of 5000 70 (by decide) (by decide)]
  rw [natSqrt_eq_of 10000 100 (by decide) (by decide)]
  rfl

theorem cropDst_quadCollinear :
    cropDst quadCollinear = [(0, 0), (110, 0), (110, 99), (0, 99)] := by
  unfold cropDst
  rw [cropDims_quadCollinear]
  rfl

theorem transform_quadCollinear_none :
    getPerspectiveTransform (cropSrc quadCollinear) (cropDst quadCollinear) = none := by
  rw [cropDst_quadCollinear]
  decide

/-- Counterexample to C7 as stated: at the specification's own collinear
example the homography system is indeed singular — the solver yields no
transform — yet crop does not fail: it still produces an output image of
the computed 111 by 100 size.  Nothing in crop detects collinearity and
no geometry error exists anywhere in the code. -/
theorem C7_counterexample :
    getPerspectiveTransform (cropSrc quadCollinear) (cropDst quadCollinear) = none
    ∧ (crop testImage quadCollinear).width = 111
    ∧ (crop testImage quadCollinear).height = 100 := by
  refine ⟨transform_quadCollinear_none, ?_, ?_⟩
  · show (cropDims quadCollinear).1 = 111
    rw [cropDims_quadCollinear]
  · show (cropDims quadCollinear).2 = 100
    rw [cropDims_quadCollinear]

/-- C7 amended: crop performs no collinearity detection and never raises:
whenever the homography system of the four correspondences is singular,
so that no perspective transform exists, crop still returns an output
image of exactly the computed dimensions, whose content is the
unspecified fill of the degenerate warp (zero in the model). -/
theorem C7_no_geometry_error_amended (image : Image) (q : BoundingQuadrilinear)
    (h : getPerspectiveTransform (cropSrc q) (cropDst q) = none) :
    (crop image q).width = (cropDims q).1
    ∧ (crop image q).height = (cropDims q).2
    ∧ ∀ x y, (crop image q).pixel x y = 0 := by
  refine ⟨rfl, rfl, ?_⟩
  intro x y
  unfold crop warpPerspective
  simp only [h]

/-- Witness for C7 amended, at the collinear example quadrilateral. -/
theorem C7_no_geometry_error_amended_witness :
    (crop testImage quadCollinear).width = (cropDims quadCollinear).1
    ∧ (crop testImage quadCollinear).height = (cropDims quadCollinear).2
    ∧ ∀ x y, (crop testImage quadCollinear).pixel x y = 0 :=
  C7_no_geometry_error_amended testImage quadCollinear transform_quadCollinear_none

/-- FOLDS_NUM (dataset.py line 16). -/
def FOLDS_NUM : Nat := 17

/-- RANDOM_STATE (dataset.py line 17). -/
def RANDOM_STATE : Nat := 12345

/-- task1_evaluation_dataset (dataset.py lines 61-73): copy the video
list, seed the global random state with the fixed RANDOM_STATE, shuffle
the copy, and keep the first len minus len mod k elements.
random.shuffle is Python library code outside the repository; it is
modelled as a function of the seed and the list — which is exactly what
seeding immediately before shuffling makes it — whose only contract is
permuting its input.  The numpy array() wrapper around the returned list
is dropped: it preserves elements and order. -/
def task1_evaluation_dataset (shuffle : Nat → List α → List α) (videos : List α)
    (k_folds : Nat) : List α :=
  let sample := shuffle RANDOM_STATE videos
  sample.take (sample.length - sample.length % k_folds)

/-- C8: for any length-preserving seeded shuffle and positive fold count,
the sampler returns exactly the first n - n mod k elements of the
fixed-seed shuffle of the video list — a prefix of it — where n - n mod k
is the largest multiple of k not exceeding n; and, being a pure function
of its inputs, two invocations agree.  The positivity hypothesis records
that Python would raise ZeroDivisionError on a zero fold count. -/
theorem C8_task1_sampling {α : Type} (shuffle : Nat → List α → List α)
    (hperm : ∀ seed l, (shuffle seed l).Perm l) (videos : List α) (k_folds : Nat)
    (hk : 0 < k_folds) :
    (task1_evaluation_dataset shuffle videos k_folds).length
      = videos.length - videos.length % k_folds
    ∧ task1_evaluation_dataset shuffle videos k_folds
      = (shuffle RANDOM_STATE videos).take (videos.length - videos.length % k_folds)
    ∧ videos.length - videos.length % k_folds = k_folds * (videos.length / k_folds)
    ∧ (∀ m, k_folds ∣ m → m ≤ videos.length →
        m ≤ videos.length - videos.length % k_folds)
    ∧ task1_evaluation_dataset shuffle videos k_folds
      = task1_evaluation_dataset shuffle videos k_folds := by
  have hlen : (shuffle RANDOM_STATE videos).length = videos.length :=
    (hperm RANDOM_STATE videos).length_eq
  have hdm := Nat.div_add_mod videos.length k_folds
  refine ⟨?_, ?_, by omega, ?_, rfl⟩
  · unfold task1_evaluation_dataset
    simp only [hlen, List.length_take]
    omega
  · unfold task1_evaluation_dataset
    simp only [hlen]
  · intro m hdvd hle
    obtain ⟨t, rfl⟩ := hdvd
    have ht : t ≤ videos.length / k_folds :=
      (Nat.le_div_iff_mul_le hk).mpr (by rwa [Nat.mul_comm] at hle)
    have h2 : k_folds * t ≤ k_folds * (videos.length / k_folds) :=
      Nat.mul_le_mul_left k_folds ht
    omega

/-- Witness for C8 at the specification's example: 20 videos, 17 folds,
with list reversal standing in for the seeded permutation; the sample has
length 17. -/
theorem C8_task1_sampling_witness :
    (0 < 17 ∧ ∀ seed l, ((fun (_ : Nat) (l2 : List Nat) => l2.reverse) seed l).Perm l)
    ∧ (task1_evaluation_dataset (fun _ l2 => l2.reverse) (List.range 20) 17).length = 17
    ∧ task1_evaluation_dataset (fun _ l2 => l2.reverse) (List.range 20) 17
      = ((List.range 20).reverse).take 17 := by
  have h := C8_task1_sampling (fun _ l2 => l2.reverse)
    (fun _ l2 => l2.reverse_perm) (List.range 20) 17 (by decide)
  refine ⟨⟨by decide, fun _ l2 => l2.reverse_perm⟩, ?_, ?_⟩
  · rw [h.1]
    decide
  · rw [h.2.1]
    decide

end VDD
